import Mathlib

/-
  Verification development for the motifmaker render task subsystem and the
  frontend API helpers.  The backend subsystem (task scheduler, quota ledger,
  auth gate, path guard, provider client) is specified in spec.md; the
  frontend helpers `resolveAssetUrl` and `postJson` are embedded from the
  web client source (src/unnamed/part_005).
-/

namespace MotifMaker

/-! ## Core task data model -/

/-- Modelled from the spec: the task lifecycle states of §4.5 (the scheduler
source itself is not under src/, only its README and callers are). -/
inductive Status where
  | queued
  | running
  | succeeded
  | failed
  | cancelled
deriving DecidableEq, Repr

/-- Modelled from the spec: `succeeded`, `failed` and `cancelled` are the
terminal states of the §4.5 state machine. -/
def Status.isTerminal : Status → Bool
  | .succeeded => true
  | .failed => true
  | .cancelled => true
  | _ => false

/-- Modelled from the spec: the normalized audio artifact produced by a
provider (duration, storage reference, provider name), §4.4. -/
structure Artifact where
  url : String
  durationSec : Nat
  provider : String
deriving DecidableEq, Repr

/-- Modelled from the spec: the final causes a Provider Client failure can
carry (timeout, rate-limited, server error, warm-up ceiling), §4.4. -/
inductive Cause where
  | rateLimited
  | serverError
  | warmingTimeout
  | timeout
deriving DecidableEq, Repr

/-- Modelled from the spec: the stable error code attached to each provider
failure cause; every code is a non-empty string, matching §7's rule that
nothing is silently swallowed. -/
def Cause.code : Cause → String
  | .rateLimited => "E_RATE_LIMITED"
  | .serverError => "E_PROVIDER_5XX"
  | .warmingTimeout => "E_WARMUP_TIMEOUT"
  | .timeout => "E_TIMEOUT"

/-- Modelled from the spec: a task error is a stable error code plus a
human-readable detail (§3, `error` field). -/
structure TaskError where
  code : String
  detail : String
deriving DecidableEq, Repr

/-- Modelled from the spec: how the scheduler records a provider failure on a
task; the code comes from the failure cause and is never empty. -/
def TaskError.ofCause (c : Cause) : TaskError :=
  ⟨c.code, "provider failed with " ++ c.code⟩

/-- Modelled from the spec: the Task record of §3 (fields not needed by any
claim, such as timestamps and progress, are omitted). -/
structure Task where
  id : Nat
  owner : String
  status : Status
  result : Option Artifact
  error : Option TaskError
  cancelRequested : Bool
deriving DecidableEq, Repr

/-- Modelled from the spec: a freshly admitted task starts `queued` with null
result and error (§3, §4.5). -/
def freshTask (i : Nat) (owner : String) : Task :=
  ⟨i, owner, .queued, none, none, false⟩

/-- Modelled from the spec: a task promoted from `queued` to `running`. -/
def Task.toRunning (t : Task) : Task := { t with status := .running }

/-- Modelled from the spec: a running task completing successfully populates
`result` (§3). -/
def Task.toSucceeded (t : Task) (a : Artifact) : Task :=
  { t with status := .succeeded, result := some a }

/-- Modelled from the spec: a running task failing populates `error` with the
last observed provider cause (§3, §7). -/
def Task.toFailed (t : Task) (c : Cause) : Task :=
  { t with status := .failed, error := some (TaskError.ofCause c) }

/-- Modelled from the spec: a task moving to `cancelled` (§4.5); `result` and
`error` stay as they were (null for queued/running tasks). -/
def Task.toCancelled (t : Task) : Task := { t with status := .cancelled }

/-- Modelled from the spec: a cancel call on a running task only sets the
advisory `cancel_requested` flag (§3, §5). -/
def Task.withCancelRequested (t : Task) : Task :=
  { t with cancelRequested := true }

/-! ## Scheduler state -/

/-- Modelled from the spec: the scheduler's task table.  Ids are handed out
sequentially (`nextId`), so id order is arrival order. -/
structure SchedState where
  store : Nat → Option Task
  nextId : Nat

/-- Modelled from the spec: replace the record of task `i` (the scheduler is
the only component that mutates task state, §3 Lifecycle). -/
def SchedState.setStore (s : SchedState) (i : Nat) (t : Task) : SchedState :=
  ⟨fun j => if j = i then some t else s.store j, s.nextId⟩

/-- Modelled from the spec: the scheduler starts with no tasks. -/
def initState : SchedState := ⟨fun _ => none, 0⟩

/-- Modelled from the spec: admission creates a fresh `queued` task under a
never-reused id (§3, §4.5). -/
def submitTask (s : SchedState) (owner : String) : SchedState :=
  ⟨fun j => if j = s.nextId then some (freshTask s.nextId owner) else s.store j,
   s.nextId + 1⟩

/-- Whether the slot `j` currently holds a `running` task. -/
def isRunningAt (s : SchedState) (j : Nat) : Bool :=
  match s.store j with
  | some t => decide (t.status = .running)
  | none => false

/-- Number of `running` tasks (only ids below `nextId` can be populated). -/
def runCount (s : SchedState) : Nat :=
  ((Finset.range s.nextId).filter (fun j => isRunningAt s j = true)).card

/-! ## Quota Ledger -/

/-- Modelled from the spec: the QuotaRecord store, `(owner, day) → count`
(§3); records are total with default count 0 (lazy creation). -/
structure Ledger where
  counts : String → Nat → Nat

/-- Modelled from the spec: `checkAndConsume(owner)` (§4.2).  Exempt owners
always pass without mutation; otherwise today's count is read and, if below
the daily limit, incremented. -/
def checkAndConsume (exempt : List String) (limit : Nat) (led : Ledger)
    (owner : String) (day : Nat) : Bool × Ledger :=
  if owner ∈ exempt then
    (true, led)
  else
    let c := led.counts owner day
    if c < limit then
      (true, ⟨fun o d => if o = owner ∧ d = day then c + 1 else led.counts o d⟩)
    else
      (false, led)

/-- Modelled from the spec: `n` consecutive `checkAndConsume` calls by the
same owner on the same day, earliest call first. -/
def consumeCalls (exempt : List String) (limit : Nat) (owner : String)
    (day : Nat) : Nat → Ledger → Ledger
  | 0, led => led
  | n + 1, led =>
      consumeCalls exempt limit owner day n
        (checkAndConsume exempt limit led owner day).2

/-! ## Scheduler step relation -/

/-- Modelled from the spec: the atomic scheduler transitions of §4.5 and §5,
with a concurrency cap `N`: admission, FIFO promotion (only the earliest
queued task, only while a slot is free), completion with result or with a
non-empty error, cancel of a queued task, the advisory cancel flag on a
running task, and the cooperative observation of that flag. -/
inductive Step (N : Nat) : SchedState → SchedState → Prop where
  | submit (s : SchedState) (owner : String) :
      Step N s (submitTask s owner)
  | promote (s : SchedState) (i : Nat) (t : Task)
      (ht : s.store i = some t) (hq : t.status = .queued)
      (hfifo : ∀ j, j < i → ∀ u, s.store j = some u → u.status ≠ .queued)
      (hcap : runCount s < N) :
      Step N s (s.setStore i t.toRunning)
  | finishOk (s : SchedState) (i : Nat) (t : Task) (a : Artifact)
      (ht : s.store i = some t) (hr : t.status = .running) :
      Step N s (s.setStore i (t.toSucceeded a))
  | finishErr (s : SchedState) (i : Nat) (t : Task) (c : Cause)
      (ht : s.store i = some t) (hr : t.status = .running) :
      Step N s (s.setStore i (t.toFailed c))
  | cancelQueued (s : SchedState) (i : Nat) (t : Task)
      (ht : s.store i = some t) (hq : t.status = .queued) :
      Step N s (s.setStore i t.toCancelled)
  | requestCancel (s : SchedState) (i : Nat) (t : Task)
      (ht : s.store i = some t) (hr : t.status = .running) :
      Step N s (s.setStore i t.withCancelRequested)
  | observeCancel (s : SchedState) (i : Nat) (t : Task)
      (ht : s.store i = some t) (hr : t.status = .running)
      (hc : t.cancelRequested = true) :
      Step N s (s.setStore i t.toCancelled)

/-- Modelled from the spec: states the scheduler can actually be in, starting
from the empty state and following the transitions. -/
inductive Reachable (N : Nat) : SchedState → Prop where
  | init : Reachable N initState
  | step {s s' : SchedState} : Reachable N s → Step N s s' → Reachable N s'

/-- Per-task correlation between `status` and the `result`/`error` fields
(§3): `result` only on `succeeded`, a non-empty `error` only on `failed`. -/
def fieldInv (t : Task) : Prop :=
  (t.status = .succeeded → (∃ a, t.result = some a) ∧ t.error = none)
  ∧ (t.status = .failed →
      t.result = none ∧ ∃ e, t.error = some e ∧ e.code ≠ "")
  ∧ (t.status ≠ .succeeded → t.status ≠ .failed →
      t.result = none ∧ t.error = none)

/-- Well-formedness of the task table: only ids already handed out are
populated (a task's id is never reused, §3). -/
def Wf (s : SchedState) : Prop :=
  ∀ i, s.nextId ≤ i → s.store i = none

/-- The combined scheduler invariant used for the reachability proofs. -/
def Inv (N : Nat) (s : SchedState) : Prop :=
  Wf s ∧ (∀ i t, s.store i = some t → fieldInv t) ∧ runCount s ≤ N

/-! ## Auth Gate, Path Guard and submit pipeline -/

/-- Modelled from the spec: the error taxonomy of §7. -/
inductive ErrCode where
  | unauthorized
  | quotaExceeded
  | validationError
  | notFound
  | forbidden
  | serviceUnavailable
deriving DecidableEq, Repr

/-- Modelled from the spec: the configuration surface of §6 (auth-required
flag, valid credentials, exempt owners, daily quota, whitelisted roots, and
the concurrency limit). -/
structure Config where
  authRequired : Bool
  validTokens : List String
  exemptOwners : List String
  dailyLimit : Nat
  roots : List (List String)
  cwd : List String
  maxConcurrent : Nat

/-- Modelled from the spec: the Auth Gate (§4.1) — a missing credential fails
unless auth is disabled, an unknown credential fails, a known credential
resolves to the owner identity. -/
def authGate (cfg : Config) (cred : Option String) : Except ErrCode String :=
  match cred with
  | none => if cfg.authRequired then .error .unauthorized else .ok "dev"
  | some tok =>
      if tok ∈ cfg.validTokens then .ok tok else .error .unauthorized

/-- Modelled from the spec: a requested filesystem path, absolute or
relative, as a list of raw components that may contain `.` and `..`. -/
structure RawPath where
  absolute : Bool
  comps : List String
deriving DecidableEq, Repr

/-- Modelled from the spec: canonicalization of path components — empty and
`.` components are dropped, `..` pops the last canonical component.  (The
model filesystem has no symlinks, so symlink resolution is the identity.) -/
def canonSteps (acc : List String) : List String → List String
  | [] => acc
  | c :: rest =>
      if c = "" ∨ c = "." then canonSteps acc rest
      else if c = ".." then canonSteps acc.dropLast rest
      else canonSteps (acc ++ [c]) rest

/-- Modelled from the spec: the canonical absolute form of a requested path,
resolved against the working directory when relative. -/
def canonicalOf (cwd : List String) (p : RawPath) : List String :=
  canonSteps (if p.absolute then [] else cwd) p.comps

/-- Modelled from the spec: ancestry on canonical paths is component-wise
list prefixing, never a textual starts-with check (§4.3). -/
def isWithin (root q : List String) : Bool :=
  root.isPrefixOf q

/-- Modelled from the spec: the Path Guard `resolve` (§4.3) — canonicalize,
then accept exactly the canonical descendants of a whitelisted root. -/
def resolvePath (roots : List (List String)) (cwd : List String)
    (p : RawPath) : Except ErrCode (List String) :=
  let q := canonicalOf cwd p
  if roots.any (fun r => isWithin r q) then .ok q
  else .error .validationError

/-- Render a canonical component list as the usual slash-separated string
(used only to exhibit the textual-prefix trap in concrete instances). -/
def joinPath (l : List String) : String :=
  "/" ++ String.intercalate "/" l

/-- Modelled from the spec: rendering parameters are opaque to the scheduler
(§3); a list of key/value knobs. -/
def Params : Type := List (String × String)

/-- Modelled from the spec: a render input is either a filesystem path or an
inline payload (§4.5, Path Guard runs only on path inputs). -/
inductive InputRef where
  | pathIn (p : RawPath)
  | inlineIn (payload : String)

/-- Modelled from the spec: the full admission-time system state — task
table, quota ledger, and the current calendar day. -/
structure SysState where
  sched : SchedState
  ledger : Ledger
  today : Nat

/-- Modelled from the spec: `submit(owner, input, params)` (§4.5) — Auth
Gate, then Quota Ledger, then Path Guard on path inputs, in that order; the
first failing gate's error is returned and no task is created; on success a
`queued` task is created and its id returned immediately. -/
def submitOp (cfg : Config) (st : SysState) (cred : Option String)
    (input : InputRef) (_params : Params) : Except ErrCode (Nat × SysState) :=
  match authGate cfg cred with
  | .error e => .error e
  | .ok owner =>
      match checkAndConsume cfg.exemptOwners cfg.dailyLimit st.ledger owner
          st.today with
      | (false, _) => .error .quotaExceeded
      | (true, led') =>
          match input with
          | .pathIn p =>
              match resolvePath cfg.roots cfg.cwd p with
              | .error e => .error e
              | .ok _ =>
                  .ok (st.sched.nextId,
                       ⟨submitTask st.sched owner, led', st.today⟩)
          | .inlineIn _ =>
              .ok (st.sched.nextId,
                   ⟨submitTask st.sched owner, led', st.today⟩)

/-- Modelled from the spec: `cancel(task_id, owner)` (§4.5) — ownership
check, no-op snapshot on a terminal task, queued tasks move to `cancelled`,
running tasks get the advisory flag set. -/
def cancelOp (s : SchedState) (i : Nat) (caller : String) :
    Except ErrCode (Task × SchedState) :=
  match s.store i with
  | none => .error .notFound
  | some t =>
      if t.owner ≠ caller then .error .forbidden
      else if t.status.isTerminal then .ok (t, s)
      else if t.status = .queued then
        .ok (t.toCancelled, s.setStore i t.toCancelled)
      else
        .ok (t.withCancelRequested, s.setStore i t.withCancelRequested)

/-- Modelled from the spec: the scheduler state after `n` further `cancel`
calls for the same task and caller (errors leave the state as it was). -/
def cancelIter (i : Nat) (caller : String) : Nat → SchedState → SchedState
  | 0, s => s
  | n + 1, s =>
      match cancelOp s i caller with
      | .ok (_, s') => cancelIter i caller n s'
      | .error _ => s

/-! ## Provider Client -/

/-- Modelled from the spec: the response classes a provider call can come
back with (§4.4) — success, 429-class rate limit, 5xx-class server error,
202-class still-warming-up. -/
inductive ProvResp where
  | ok (a : Artifact)
  | rateLimited
  | serverError
  | warming
deriving DecidableEq, Repr

/-- Modelled from the spec: the failure cause observed on a given response
class (§4.4, "the last observed cause"). -/
def errCause : ProvResp → Cause
  | .rateLimited => .rateLimited
  | .serverError => .serverError
  | .warming => .warmingTimeout
  | .ok _ => .timeout

/-- Modelled from the spec: the sum of the exponential backoff delays for
`k` error retries starting at retry number `errUsed` (§4.4). -/
def backSum (base : Nat) : Nat → Nat → Nat
  | _, 0 => 0
  | errUsed, k + 1 => base * 2 ^ errUsed + backSum base (errUsed + 1) k

/-- Modelled from the spec: the Provider Client retry loop (§4.4).  The
provider is a sequence of responses, indexed by call number.  A 429/5xx
response consumes one retry attempt and adds an exponential backoff delay; a
202 response consumes one poll and adds the fixed poll interval; when the
respective budget is exhausted the loop fails with the last observed cause.
`fuel` bounds the recursion and is chosen large enough to never run out. -/
def renderAux (resp : Nat → ProvResp) (base pollIv : Nat) :
    Nat → Nat → Nat → Nat → Nat → Nat → Except Cause (Artifact × Nat)
  | 0, _, _, _, _, _ => .error .timeout
  | fuel + 1, aL, pL, idx, elapsed, errUsed =>
      match resp idx with
      | .ok a => .ok (a, elapsed)
      | .rateLimited =>
          match aL with
          | 0 => .error .rateLimited
          | aL' + 1 =>
              renderAux resp base pollIv fuel aL' pL (idx + 1)
                (elapsed + base * 2 ^ errUsed) (errUsed + 1)
      | .serverError =>
          match aL with
          | 0 => .error .serverError
          | aL' + 1 =>
              renderAux resp base pollIv fuel aL' pL (idx + 1)
                (elapsed + base * 2 ^ errUsed) (errUsed + 1)
      | .warming =>
          match pL with
          | 0 => .error .warmingTimeout
          | pL' + 1 =>
              renderAux resp base pollIv fuel aL pL' (idx + 1)
                (elapsed + pollIv) errUsed

/-- Modelled from the spec: `render` against a provider response sequence,
with `attemptCap` error retries, `maxPolls` warm-up polls, backoff base
`base` and poll interval `pollIv`; returns the artifact and total elapsed
delay, or the last observed cause. -/
def renderWith (resp : Nat → ProvResp) (base pollIv attemptCap maxPolls : Nat) :
    Except Cause (Artifact × Nat) :=
  renderAux resp base pollIv (attemptCap + maxPolls + 1) attemptCap maxPolls
    0 0 0

/-- Modelled from the spec: writing a finished provider outcome back into the
scheduler's state for a running task — success populates `result`, failure
populates `error` (§7 propagation policy). -/
def applyOutcome (s : SchedState) (i : Nat)
    (out : Except Cause Artifact) : SchedState :=
  match s.store i with
  | none => s
  | some t =>
      if t.status = .running then
        match out with
        | .ok a => s.setStore i (t.toSucceeded a)
        | .error c => s.setStore i (t.toFailed c)
      else s

/-- The artifact the local fallback provider produces for a given input. -/
def localArtifact (input : String) : Artifact :=
  ⟨"local://placeholder/" ++ input, 30, "placeholder"⟩

/-- Modelled from the spec: the local fallback provider (§4.4) — synthesizes
deterministically from the input, ignores network availability, and never
fails. -/
def localRender (input : String) (_params : Params) (_netAvailable : Bool) :
    Except Cause Artifact :=
  .ok (localArtifact input)

/-! ## Frontend API helpers (embedded from src/unnamed/part_005) -/

/-- The `API_BASE` constant of the web client; the source reads the Vite
environment variable and falls back to this default. -/
def API_BASE : String := "http://127.0.0.1:8000"

/-- Case-insensitive test for an `http://` or `https://` scheme, embedding
the regular-expression test `^https?:\/\/` with the `i` flag. -/
def startsWithHttpScheme (s : String) : Bool :=
  "http://".data.isPrefixOf (s.data.map Char.toLower)
    || "https://".data.isPrefixOf (s.data.map Char.toLower)

/-- Embedding of `API_BASE.replace(/\/?$/, "")`: removes one trailing slash
when present. -/
def stripTrailingSlash (s : String) : String :=
  if s.data.getLast? = some '/' then String.mk s.data.dropLast else s

/-- Characters JavaScript's `encodeURIComponent` leaves unescaped. -/
def isUnreservedUri (c : Char) : Bool :=
  c.isAlphanum || c = '-' || c = '_' || c = '.' || c = '!' || c = '~'
    || c = '*' || c = '(' || c = ')' || c = '\''

/-- UTF-8 byte sequence of a Unicode code point. -/
def utf8BytesOfCode (n : Nat) : List Nat :=
  if n < 0x80 then [n]
  else if n < 0x800 then [0xC0 + n / 0x40, 0x80 + n % 0x40]
  else if n < 0x10000 then
    [0xE0 + n / 0x1000, 0x80 + n / 0x40 % 0x40, 0x80 + n % 0x40]
  else
    [0xF0 + n / 0x40000, 0x80 + n / 0x1000 % 0x40, 0x80 + n / 0x40 % 0x40,
     0x80 + n % 0x40]

/-- Uppercase hexadecimal digit, as produced by `encodeURIComponent`. -/
def hexDigit (n : Nat) : Char :=
  if n < 10 then Char.ofNat (48 + n) else Char.ofNat (55 + n)

/-- Percent-escape of one byte. -/
def percentByte (b : Nat) : List Char :=
  ['%', hexDigit (b / 16), hexDigit (b % 16)]

/-- Percent-encoding of one character: unreserved characters pass through,
everything else becomes the percent-escapes of its UTF-8 bytes. -/
def encodeChar (c : Char) : List Char :=
  if isUnreservedUri c then [c]
  else ((utf8BytesOfCode c.toNat).map percentByte).flatten

/-- Embedding of JavaScript's `encodeURIComponent`. -/
def encodeURIComponent (s : String) : String :=
  String.mk (s.data.map encodeChar).flatten

/-- Embedding of `startsWith("/")` on the raw string. -/
def startsWithSlash (s : String) : Bool :=
  "/".data.isPrefixOf s.data

/-- Embedding of `resolveAssetUrl` (src/unnamed/part_005 lines 917-930).
`none` stands for both `null` and `undefined`; the falsy check `!path` also
catches the empty string. -/
def resolveAssetUrl (path : Option String) : Option String :=
  match path with
  | none => none
  | some p =>
      if p = "" then none
      else if startsWithHttpScheme p then some p
      else if startsWithSlash p then
        some (stripTrailingSlash API_BASE ++ p)
      else
        some (stripTrailingSlash API_BASE ++ "/download?path="
          ++ encodeURIComponent p)

/-- The error envelope carried by a failing backend response
(src/unnamed/part_005); `message` is optional at runtime, which the source
defends against with `?? "Unknown error"`. -/
structure ErrInfo where
  code : Option String
  message : Option String
  details : Option String
deriving DecidableEq, Repr

/-- The `{ ok: true, result } | { ok: false, error }` envelope every POST
endpoint returns (src/unnamed/part_005). -/
inductive Envelope (T : Type) where
  | okEnv (result : T)
  | errEnv (e : ErrInfo)
deriving DecidableEq, Repr

/-- An HTTP response as `postJson` observes it: the status code and the
parsed JSON body (`none` when `response.json()` fails). -/
structure HttpResp (T : Type) where
  status : Nat
  body : Option (Envelope T)

/-- Embedding of `Response.ok`: status in the 2xx range. -/
def respOk (status : Nat) : Bool := decide (200 ≤ status ∧ status ≤ 299)

/-- Embedding of the frontend `ApiError` (src/unnamed/part_005 lines
891-903): message, HTTP status, optional backend code and details. -/
structure ApiError where
  message : String
  status : Nat
  code : Option String
  details : Option String
deriving DecidableEq, Repr

/-- The fixed message thrown when the response body fails to parse. -/
def parseFailMessage : String :=
  "Failed to parse response body. Please check the network or backend logs."

/-- Embedding of `postJson` (src/unnamed/part_005 lines 936-973): an
unparseable body throws with the status; an `ok:false` envelope throws with
the envelope's error payload; a 2xx `ok:true` envelope returns `result`; a
non-2xx `ok:true` envelope throws `HTTP <status>`. -/
def postJson {T : Type} (r : HttpResp T) : Except ApiError T :=
  match r.body with
  | none => .error ⟨parseFailMessage, r.status, none, none⟩
  | some (.okEnv v) =>
      if respOk r.status then .ok v
      else .error ⟨"HTTP " ++ toString r.status, r.status, none, none⟩
  | some (.errEnv e) =>
      .error ⟨e.message.getD "Unknown error", r.status, e.code, e.details⟩

/-! ## Concrete states and formulas used by the claim theorems -/

/-- The empty quota ledger (no owner has consumed anything). -/
def ledZero : Ledger := ⟨fun _ _ => 0⟩

/-- Root set used by the concrete Path Guard instances. -/
def rootsDemo : List (List String) := [["srv", "outputs"]]

/-- Demo configuration: auth required, two tokens, one exempt, quota 10. -/
def cfgDemo : Config :=
  ⟨true, ["tok_dev", "tok_team"], ["tok_team"], 10, rootsDemo, ["srv"], 2⟩

/-- Demo admission-time system state: empty scheduler and ledger, day 0. -/
def sysDemo : SysState := ⟨initState, ledZero, 0⟩

/-- A scheduler state holding one task cancelled before it ever ran:
submit then cancel-queued. -/
def cancelledDemoState : SchedState :=
  (submitTask initState "alice").setStore 0 ((freshTask 0 "alice").toCancelled)

/-- A scheduler state holding one running task: submit then promote. -/
def runningDemoState : SchedState :=
  (submitTask initState "alice").setStore 0 ((freshTask 0 "alice").toRunning)

/-- A finished artifact used by the concrete cancel/provider instances. -/
def doneArtifact : Artifact := ⟨"local://placeholder/demo.mid", 30, "placeholder"⟩

/-- A task already terminal (`succeeded`) with its result populated. -/
def doneTask : Task := ⟨0, "alice", .succeeded, some doneArtifact, none, false⟩

/-- A one-task scheduler state whose task is terminal. -/
def doneState : SchedState := ⟨fun j => if j = 0 then some doneTask else none, 1⟩

/-- A task currently `running` (result and error still null). -/
def runTask : Task := ⟨0, "alice", .running, none, none, false⟩

/-- A one-task scheduler state whose task is running. -/
def runState : SchedState := ⟨fun j => if j = 0 then some runTask else none, 1⟩

/-- A provider that is rate-limited on its first three calls and then
succeeds. -/
def resp429x3 : Nat → ProvResp :=
  fun i => if i < 3 then .rateLimited else .ok doneArtifact

/-- A provider that rate-limits forever. -/
def respAlways429 : Nat → ProvResp := fun _ => .rateLimited

/-- A provider that is still warming up on its first two calls and then
succeeds. -/
def respWarmx2 : Nat → ProvResp :=
  fun i => if i < 2 then .warming else .ok doneArtifact

/-- A provider that never finishes warming up. -/
def respAlwaysWarm : Nat → ProvResp := fun _ => .warming

/-- The invariant exactly as claim C1 states it: every terminal task
(`succeeded`, `failed` or `cancelled`) has exactly one of result/error
non-null.  Refuted below: a cancelled task has both null. -/
def C1_claimed_invariant (N : Nat) : Prop :=
  ∀ s, Reachable N s → ∀ i t, s.store i = some t →
    t.status.isTerminal = true →
    ((t.result ≠ none ∧ t.error = none) ∨ (t.result = none ∧ t.error ≠ none))

/-! ## Quota Ledger lemmas and claim C2 -/

/-- A non-exempt owner's daily count after `n` calls is the old count plus
`n`, capped at the daily limit. -/
theorem consumeCalls_counts (exempt : List String) (limit : Nat)
    (owner : String) (day : Nat) (hne : owner ∉ exempt) :
    ∀ (n : Nat) (led : Ledger), led.counts owner day ≤ limit →
      (consumeCalls exempt limit owner day n led).counts owner day
        = min (led.counts owner day + n) limit := by
  intro n
  induction n with
  | zero =>
      intro led h
      simp only [consumeCalls]
      omega
  | succ n ih =>
      intro led h
      by_cases hc : led.counts owner day < limit
      · have hstep :
            (checkAndConsume exempt limit led owner day).2.counts owner day
              = led.counts owner day + 1 := by
          simp [checkAndConsume, hne, hc]
        rw [consumeCalls, ih _ (by omega), hstep]
        omega
      · have hstep : (checkAndConsume exempt limit led owner day).2 = led := by
          simp [checkAndConsume, hne, hc]
        rw [consumeCalls, hstep, ih _ h]
        omega

/-- C2: for a non-exempt owner starting a fresh day, the count after `n`
`checkAndConsume` calls is `min n limit` (each allowed call increments it),
and the next call is allowed exactly when fewer than `limit` calls have been
made; an exempt owner is always allowed and the ledger is unchanged. -/
theorem C2_quota_daily_limit (exempt : List String) (limit : Nat)
    (owner : String) (day : Nat) (led : Ledger) (n : Nat) :
    (owner ∉ exempt → led.counts owner day = 0 →
      (consumeCalls exempt limit owner day n led).counts owner day
          = min n limit
      ∧ ((checkAndConsume exempt limit
            (consumeCalls exempt limit owner day n led) owner day).1 = true
          ↔ n < limit))
    ∧ (owner ∈ exempt →
        checkAndConsume exempt limit led owner day = (true, led)) := by
  constructor
  · intro hne h0
    have hcnt := consumeCalls_counts exempt limit owner day hne n led
      (by omega)
    rw [h0, Nat.zero_add] at hcnt
    refine ⟨hcnt, ?_⟩
    by_cases hlt : min n limit < limit
    · simp [checkAndConsume, hne, hcnt, hlt]
      omega
    · simp [checkAndConsume, hne, hcnt, hlt]
      omega
  · intro hmem
    simp [checkAndConsume, hmem]

/-- C2 witness: with limit 2 and a fresh ledger, five calls by "alice" leave
her count at 2 and the next call is refused, while the exempt owner
"tok_team" is always allowed with the ledger untouched. -/
theorem C2_quota_daily_limit_witness :
    (consumeCalls ["tok_team"] 2 "alice" 0 5 ledZero).counts "alice" 0
        = min 5 2
    ∧ ((checkAndConsume ["tok_team"] 2
          (consumeCalls ["tok_team"] 2 "alice" 0 5 ledZero) "alice" 0).1 = true
        ↔ 5 < 2)
    ∧ checkAndConsume ["tok_team"] 2 ledZero "tok_team" 0 = (true, ledZero) := by
  refine ⟨?_, ?_, ?_⟩
  · exact ((C2_quota_daily_limit ["tok_team"] 2 "alice" 0 ledZero 5).1
      (by decide) rfl).1
  · exact ((C2_quota_daily_limit ["tok_team"] 2 "alice" 0 ledZero 5).1
      (by decide) rfl).2
  · exact (C2_quota_daily_limit ["tok_team"] 2 "tok_team" 0 ledZero 5).2
      (by decide)

/-! ## Frontend helper lemmas and claims C9 and C10 -/

/-- The default `API_BASE` carries no trailing slash, so stripping one is the
identity on it. -/
theorem stripTrailingSlash_api_base : stripTrailingSlash API_BASE = API_BASE := by
  decide

/-- C9: `resolveAssetUrl` returns `null` exactly on `null`/`undefined`/empty
input; echoes inputs with an `http(s)://` scheme (case-insensitive); prefixes
`API_BASE` verbatim for root-relative paths; and routes every other path
through the backend `/download` endpoint with the path percent-encoded as a
query parameter. -/
theorem C9_resolveAssetUrl_cases (p : Option String) :
    (resolveAssetUrl p = none ↔ (p = none ∨ p = some ""))
    ∧ (∀ s, p = some s → s ≠ "" →
        (startsWithHttpScheme s = true → resolveAssetUrl p = some s)
        ∧ (startsWithHttpScheme s = false → startsWithSlash s = true →
            resolveAssetUrl p = some (API_BASE ++ s))
        ∧ (startsWithHttpScheme s = false → startsWithSlash s = false →
            resolveAssetUrl p
              = some (API_BASE ++ "/download?path=" ++ encodeURIComponent s))) := by
  constructor
  · cases p with
    | none => simp [resolveAssetUrl]
    | some s =>
        by_cases hs : s = ""
        · subst hs; simp [resolveAssetUrl]
        · by_cases h1 : startsWithHttpScheme s = true
          · simp [resolveAssetUrl, hs, h1]
          · rw [Bool.not_eq_true] at h1
            by_cases h2 : startsWithSlash s = true
            · simp [resolveAssetUrl, hs, h1, h2]
            · rw [Bool.not_eq_true] at h2
              simp [resolveAssetUrl, hs, h1, h2]
  · intro s hp hs
    subst hp
    refine ⟨?_, ?_, ?_⟩
    · intro h1
      simp [resolveAssetUrl, hs, h1]
    · intro h1 h2
      simp [resolveAssetUrl, hs, h1, h2, stripTrailingSlash_api_base]
    · intro h1 h2
      simp [resolveAssetUrl, hs, h1, h2, stripTrailingSlash_api_base]

/-- C9 witness: a bare output path is routed through `/download` with
percent-encoding, an uppercase `HTTPS://` URL is echoed, a root-relative
path is prefixed with `API_BASE`, and empty/null inputs give `null`. -/
theorem C9_resolveAssetUrl_witness :
    resolveAssetUrl (some "outputs/demo 1.wav")
        = some (API_BASE ++ "/download?path="
            ++ encodeURIComponent "outputs/demo 1.wav")
    ∧ resolveAssetUrl (some "HTTPS://cdn.example.com/a.mp3")
        = some "HTTPS://cdn.example.com/a.mp3"
    ∧ resolveAssetUrl (some "/static/placeholder.wav")
        = some (API_BASE ++ "/static/placeholder.wav")
    ∧ resolveAssetUrl (some "") = none
    ∧ resolveAssetUrl none = none := by
  refine ⟨?_, ?_, ?_, ?_, ?_⟩
  · exact ((C9_resolveAssetUrl_cases (some "outputs/demo 1.wav")).2 _ rfl
      (by decide)).2.2 (by decide) (by decide)
  · exact ((C9_resolveAssetUrl_cases (some "HTTPS://cdn.example.com/a.mp3")).2 _
      rfl (by decide)).1 (by decide)
  · exact ((C9_resolveAssetUrl_cases (some "/static/placeholder.wav")).2 _ rfl
      (by decide)).2.1 (by decide) (by decide)
  · exact (C9_resolveAssetUrl_cases (some "")).1.2 (Or.inr rfl)
  · exact (C9_resolveAssetUrl_cases none).1.2 (Or.inl rfl)

/-- C10: `postJson` returns the envelope's `result` exactly when the HTTP
status is 2xx and the body is an `ok:true` envelope; an unparseable body, an
`ok:false` envelope, and a non-2xx `ok:true` response each throw an
`ApiError` carrying the HTTP status (and the envelope's code, message and
details when present). -/
theorem C10_postJson_envelope {T : Type} (r : HttpResp T) :
    (∀ v : T, postJson r = Except.ok v ↔
        (respOk r.status = true ∧ r.body = some (Envelope.okEnv v)))
    ∧ (r.body = none →
        postJson r = Except.error ⟨parseFailMessage, r.status, none, none⟩)
    ∧ (∀ e, r.body = some (Envelope.errEnv e) →
        postJson r = Except.error
          ⟨e.message.getD "Unknown error", r.status, e.code, e.details⟩)
    ∧ (∀ v : T, respOk r.status = false → r.body = some (Envelope.okEnv v) →
        postJson r = Except.error
          ⟨"HTTP " ++ toString r.status, r.status, none, none⟩) := by
  obtain ⟨st, body⟩ := r
  refine ⟨?_, ?_, ?_, ?_⟩
  · intro v
    cases body with
    | none => simp [postJson]
    | some env =>
        cases env with
        | okEnv w =>
            by_cases h : respOk st = true
            · have hpj : postJson (⟨st, some (Envelope.okEnv w)⟩ : HttpResp T)
                  = Except.ok w := by simp [postJson, h]
              rw [hpj]
              constructor
              · intro hv
                injection hv with hv
                exact ⟨h, by rw [hv]⟩
              · rintro ⟨-, hv⟩
                injection hv with hv
                injection hv with hv
                rw [hv]
            · rw [Bool.not_eq_true] at h
              simp [postJson, h]
        | errEnv e => simp [postJson]
  · intro hb; subst hb; simp [postJson]
  · intro e hb; subst hb; simp [postJson]
  · intro v h hb
    subst hb
    simp [postJson, h]

/-- C10 witness: a 2xx `ok:true` envelope returns its result; a 5xx
`ok:true` envelope, an unparseable body, and an `ok:false` envelope each
throw, carrying the status and the envelope's error fields. -/
theorem C10_postJson_envelope_witness :
    postJson (⟨200, some (Envelope.okEnv (7 : Nat))⟩ : HttpResp Nat)
        = Except.ok 7
    ∧ postJson (⟨500, some (Envelope.okEnv (7 : Nat))⟩ : HttpResp Nat)
        = Except.error ⟨"HTTP " ++ toString 500, 500, none, none⟩
    ∧ postJson (⟨200, (none : Option (Envelope Nat))⟩ : HttpResp Nat)
        = Except.error ⟨parseFailMessage, 200, none, none⟩
    ∧ postJson (⟨403, some (Envelope.errEnv
          ⟨some "E_FORBIDDEN", some "denied", none⟩)⟩ : HttpResp Nat)
        = Except.error
          ⟨(some "denied").getD "Unknown error", 403, some "E_FORBIDDEN",
           none⟩ := by
  refine ⟨?_, ?_, ?_, ?_⟩
  · exact ((C10_postJson_envelope
      (⟨200, some (Envelope.okEnv 7)⟩ : HttpResp Nat)).1 7).2 ⟨rfl, rfl⟩
  · exact (C10_postJson_envelope
      (⟨500, some (Envelope.okEnv 7)⟩ : HttpResp Nat)).2.2.2 7 rfl rfl
  · exact (C10_postJson_envelope
      (⟨200, (none : Option (Envelope Nat))⟩ : HttpResp Nat)).2.1 rfl
  · exact (C10_postJson_envelope
      (⟨403, some (Envelope.errEnv ⟨some "E_FORBIDDEN", some "denied",
        none⟩)⟩ : HttpResp Nat)).2.2.1 _ rfl

/-! ## Path Guard: claim C4 -/

/-- C4: the Path Guard accepts a request exactly when its canonical form
(after resolving `.` and `..`) is a component-wise descendant of one of the
configured roots, returning that canonical absolute path, and rejects
everything else with `ValidationError`. -/
theorem C4_path_guard (roots : List (List String)) (cwd : List String)
    (p : RawPath) :
    ((∃ r ∈ roots, r <+: canonicalOf cwd p) →
        resolvePath roots cwd p = Except.ok (canonicalOf cwd p))
    ∧ ((∀ r ∈ roots, ¬ r <+: canonicalOf cwd p) →
        resolvePath roots cwd p = Except.error ErrCode.validationError) := by
  constructor
  · intro h
    have hany : roots.any (fun r => isWithin r (canonicalOf cwd p)) = true := by
      rw [List.any_eq_true]
      obtain ⟨r, hr, hpre⟩ := h
      exact ⟨r, hr, by rw [isWithin, List.isPrefixOf_iff_prefix]; exact hpre⟩
    simp [resolvePath, hany]
  · intro h
    have hany : roots.any (fun r => isWithin r (canonicalOf cwd p)) = false := by
      rw [List.any_eq_false]
      intro r hr hpre
      rw [isWithin, List.isPrefixOf_iff_prefix] at hpre
      exact h r hr hpre
    simp [resolvePath, hany]

/-- C4 witness: from `/srv` both the traversal `../outputs/secret` and the
sibling directory `outputs_backup/x` are rejected — even though the sibling's
rendered path textually starts with the rendered root — while a path below
the root resolves to its canonical absolute form, and the absolute request
`/etc/passwd` is rejected. -/
theorem C4_path_guard_witness :
    resolvePath rootsDemo ["srv"] ⟨false, ["..", "outputs", "secret"]⟩
        = Except.error ErrCode.validationError
    ∧ resolvePath rootsDemo ["srv"] ⟨false, ["outputs_backup", "x"]⟩
        = Except.error ErrCode.validationError
    ∧ (joinPath ["srv", "outputs"]).data.isPrefixOf
        (joinPath (canonicalOf ["srv"] ⟨false, ["outputs_backup", "x"]⟩)).data
        = true
    ∧ resolvePath rootsDemo ["srv", "outputs"] ⟨false, ["sub", "good.mid"]⟩
        = Except.ok ["srv", "outputs", "sub", "good.mid"]
    ∧ resolvePath rootsDemo [] ⟨true, ["etc", "passwd"]⟩
        = Except.error ErrCode.validationError := by
  refine ⟨?_, ?_, ?_, ?_, ?_⟩
  · exact (C4_path_guard rootsDemo ["srv"]
      ⟨false, ["..", "outputs", "secret"]⟩).2 (by decide)
  · exact (C4_path_guard rootsDemo ["srv"]
      ⟨false, ["outputs_backup", "x"]⟩).2 (by decide)
  · decide
  · exact (C4_path_guard rootsDemo ["srv", "outputs"]
      ⟨false, ["sub", "good.mid"]⟩).1 (by decide)
  · exact (C4_path_guard rootsDemo []
      ⟨true, ["etc", "passwd"]⟩).2 (by decide)

/-! ## Submit pipeline: claim C5 -/

/-- C5: `submit` runs Auth Gate, Quota Ledger and Path Guard in that order;
an auth failure wins over everything, a quota refusal over the Path Guard, a
path failure is surfaced as-is; in every failure case no task is created,
and when every gate passes a `queued` task is created and its id is returned
immediately. -/
theorem C5_submit_gate_order (cfg : Config) (st : SysState)
    (cred : Option String) (input : InputRef) (params : Params) :
    (∀ e, authGate cfg cred = Except.error e →
        submitOp cfg st cred input params = Except.error e)
    ∧ (∀ owner led₂, authGate cfg cred = Except.ok owner →
        checkAndConsume cfg.exemptOwners cfg.dailyLimit st.ledger owner
            st.today = (false, led₂) →
        submitOp cfg st cred input params = Except.error ErrCode.quotaExceeded)
    ∧ (∀ owner led' p e, authGate cfg cred = Except.ok owner →
        checkAndConsume cfg.exemptOwners cfg.dailyLimit st.ledger owner
            st.today = (true, led') →
        input = InputRef.pathIn p →
        resolvePath cfg.roots cfg.cwd p = Except.error e →
        submitOp cfg st cred input params = Except.error e)
    ∧ (∀ owner led' payload, authGate cfg cred = Except.ok owner →
        checkAndConsume cfg.exemptOwners cfg.dailyLimit st.ledger owner
            st.today = (true, led') →
        input = InputRef.inlineIn payload →
        submitOp cfg st cred input params
          = Except.ok (st.sched.nextId,
              ⟨submitTask st.sched owner, led', st.today⟩)
        ∧ (submitTask st.sched owner).store st.sched.nextId
            = some (freshTask st.sched.nextId owner)
        ∧ (freshTask st.sched.nextId owner).status = Status.queued)
    ∧ (∀ owner led' p q, authGate cfg cred = Except.ok owner →
        checkAndConsume cfg.exemptOwners cfg.dailyLimit st.ledger owner
            st.today = (true, led') →
        input = InputRef.pathIn p →
        resolvePath cfg.roots cfg.cwd p = Except.ok q →
        submitOp cfg st cred input params
          = Except.ok (st.sched.nextId,
              ⟨submitTask st.sched owner, led', st.today⟩)
        ∧ (submitTask st.sched owner).store st.sched.nextId
            = some (freshTask st.sched.nextId owner)
        ∧ (freshTask st.sched.nextId owner).status = Status.queued) := by
  refine ⟨?_, ?_, ?_, ?_, ?_⟩
  · intro e hauth
    simp [submitOp, hauth]
  · intro owner led₂ hauth hquota
    simp [submitOp, hauth, hquota]
  · intro owner led' p e hauth hquota hin hres
    subst hin
    simp [submitOp, hauth, hquota, hres]
  · intro owner led' payload hauth hquota hin
    subst hin
    refine ⟨?_, ?_, rfl⟩
    · simp [submitOp, hauth, hquota]
    · simp [submitTask]
  · intro owner led' p q hauth hquota hin hres
    subst hin
    refine ⟨?_, ?_, rfl⟩
    · simp [submitOp, hauth, hquota, hres]
    · simp [submitTask]

/-- C5 witness: with auth required, a missing credential fails with
`Unauthorized` before any other gate; a valid token submitting the path
`/etc/passwd` fails with `ValidationError`; and a valid token with an inline
payload gets task id 0 in state `queued`. -/
theorem C5_submit_gate_order_witness :
    submitOp cfgDemo sysDemo none (InputRef.inlineIn "midi") []
        = Except.error ErrCode.unauthorized
    ∧ submitOp cfgDemo sysDemo (some "tok_dev")
          (InputRef.pathIn ⟨true, ["etc", "passwd"]⟩) []
        = Except.error ErrCode.validationError
    ∧ submitOp cfgDemo sysDemo (some "tok_dev") (InputRef.inlineIn "midi") []
        = Except.ok (0,
            ⟨submitTask initState "tok_dev",
             (checkAndConsume ["tok_team"] 10 ledZero "tok_dev" 0).2, 0⟩)
    ∧ (submitTask initState "tok_dev").store 0
        = some (freshTask 0 "tok_dev")
    ∧ (freshTask 0 "tok_dev").status = Status.queued := by
  refine ⟨?_, ?_, ?_, ?_, ?_⟩
  · exact (C5_submit_gate_order cfgDemo sysDemo none
      (InputRef.inlineIn "midi") []).1 ErrCode.unauthorized rfl
  · exact (C5_submit_gate_order cfgDemo sysDemo (some "tok_dev")
      (InputRef.pathIn ⟨true, ["etc", "passwd"]⟩) []).2.2.1 "tok_dev"
      (checkAndConsume ["tok_team"] 10 ledZero "tok_dev" 0).2
      ⟨true, ["etc", "passwd"]⟩ ErrCode.validationError rfl rfl rfl rfl
  · exact ((C5_submit_gate_order cfgDemo sysDemo (some "tok_dev")
      (InputRef.inlineIn "midi") []).2.2.2.1 "tok_dev"
      (checkAndConsume ["tok_team"] 10 ledZero "tok_dev" 0).2 "midi"
      rfl rfl rfl).1
  · exact ((C5_submit_gate_order cfgDemo sysDemo (some "tok_dev")
      (InputRef.inlineIn "midi") []).2.2.2.1 "tok_dev"
      (checkAndConsume ["tok_team"] 10 ledZero "tok_dev" 0).2 "midi"
      rfl rfl rfl).2.1
  · exact ((C5_submit_gate_order cfgDemo sysDemo (some "tok_dev")
      (InputRef.inlineIn "midi") []).2.2.2.1 "tok_dev"
      (checkAndConsume ["tok_team"] 10 ledZero "tok_dev" 0).2 "midi"
      rfl rfl rfl).2.2

/-! ## Cancel: claim C6 -/

/-- C6: cancelling a terminal task as its owner is a no-op — it returns the
existing snapshot without error, the scheduler state is unchanged, and any
number of repeated cancel calls leave the state exactly as it was. -/
theorem C6_cancel_terminal_idempotent (s : SchedState) (i : Nat)
    (caller : String) (t : Task) (ht : s.store i = some t)
    (hown : t.owner = caller) (hterm : t.status.isTerminal = true) :
    cancelOp s i caller = Except.ok (t, s)
    ∧ ∀ n, cancelIter i caller n s = s := by
  have hcancel : cancelOp s i caller = Except.ok (t, s) := by
    simp [cancelOp, ht, hown, hterm]
  refine ⟨hcancel, ?_⟩
  intro n
  induction n with
  | zero => rfl
  | succ n ih => rw [cancelIter, hcancel]; exact ih

/-- C6 witness: the succeeded demo task is returned unchanged by `cancel`,
and three repeated cancels leave the state identical. -/
theorem C6_cancel_terminal_idempotent_witness :
    cancelOp doneState 0 "alice" = Except.ok (doneTask, doneState)
    ∧ cancelIter 0 "alice" 3 doneState = doneState := by
  have h := C6_cancel_terminal_idempotent doneState 0 "alice" doneTask rfl rfl
    rfl
  exact ⟨h.1, h.2 3⟩

/-! ## Provider Client lemmas and claims C7 and C8 -/

/-- The exponential-backoff sum satisfies the geometric identity
`backSum + first-delay = first-delay · 2^k`. -/
theorem backSum_add (base : Nat) :
    ∀ (k errUsed : Nat),
      backSum base errUsed k + base * 2 ^ errUsed
        = base * 2 ^ errUsed * 2 ^ k := by
  intro k
  induction k with
  | zero => intro errUsed; simp [backSum]
  | succ k ih =>
      intro errUsed
      calc backSum base errUsed (k + 1) + base * 2 ^ errUsed
          = backSum base (errUsed + 1) k + base * 2 ^ (errUsed + 1) := by
            rw [backSum, pow_succ]; ring
        _ = base * 2 ^ (errUsed + 1) * 2 ^ k := ih (errUsed + 1)
        _ = base * 2 ^ errUsed * 2 ^ (k + 1) := by
            rw [pow_succ, pow_succ]; ring

/-- Retry loop, error path, success case: `k` rate-limit/server-error
responses followed by a success give the artifact with the summed backoff
delays, provided `k` retries fit the attempt budget. -/
theorem renderAux_errs_then_ok (resp : Nat → ProvResp) (base pollIv : Nat)
    (a : Artifact) :
    ∀ (k fuel aL pL idx elapsed errUsed : Nat),
      (∀ i, i < k →
        resp (idx + i) = ProvResp.rateLimited
          ∨ resp (idx + i) = ProvResp.serverError) →
      resp (idx + k) = ProvResp.ok a → k ≤ aL → k < fuel →
      renderAux resp base pollIv fuel aL pL idx elapsed errUsed
        = Except.ok (a, elapsed + backSum base errUsed k) := by
  intro k
  induction k with
  | zero =>
      intro fuel aL pL idx elapsed errUsed _ hok _ hfuel
      obtain ⟨f, rfl⟩ : ∃ f, fuel = f + 1 := ⟨fuel - 1, by omega⟩
      rw [Nat.add_zero] at hok
      simp [renderAux, hok, backSum]
  | succ k ih =>
      intro fuel aL pL idx elapsed errUsed herr hok hk hfuel
      obtain ⟨f, rfl⟩ : ∃ f, fuel = f + 1 := ⟨fuel - 1, by omega⟩
      obtain ⟨aL', rfl⟩ : ∃ x, aL = x + 1 := ⟨aL - 1, by omega⟩
      have h0 := herr 0 (by omega)
      rw [Nat.add_zero] at h0
      have hshift : ∀ i, i < k →
          resp (idx + 1 + i) = ProvResp.rateLimited
            ∨ resp (idx + 1 + i) = ProvResp.serverError := by
        intro i hi
        have := herr (i + 1) (by omega)
        rwa [show idx + (i + 1) = idx + 1 + i by omega] at this
      have hok' : resp (idx + 1 + k) = ProvResp.ok a := by
        rwa [show idx + 1 + k = idx + (k + 1) by omega]
      have hrec := ih f aL' pL (idx + 1) (elapsed + base * 2 ^ errUsed)
        (errUsed + 1) hshift hok' (by omega) (by omega)
      have hsum : elapsed + base * 2 ^ errUsed
            + backSum base (errUsed + 1) k
          = elapsed + backSum base errUsed (k + 1) := by
        rw [backSum]; omega
      rcases h0 with h0 | h0
      · simp only [renderAux, h0]
        rw [hrec, hsum]
      · simp only [renderAux, h0]
        rw [hrec, hsum]

/-- Retry loop, error path, exhaustion case: when every response through the
attempt budget is a rate limit or server error, the loop fails with the last
observed cause. -/
theorem renderAux_errs_exhaust (resp : Nat → ProvResp) (base pollIv : Nat) :
    ∀ (aL fuel pL idx elapsed errUsed : Nat),
      (∀ i, i ≤ aL →
        resp (idx + i) = ProvResp.rateLimited
          ∨ resp (idx + i) = ProvResp.serverError) →
      aL < fuel →
      renderAux resp base pollIv fuel aL pL idx elapsed errUsed
        = Except.error (errCause (resp (idx + aL))) := by
  intro aL
  induction aL with
  | zero =>
      intro fuel pL idx elapsed errUsed herr hfuel
      obtain ⟨f, rfl⟩ : ∃ f, fuel = f + 1 := ⟨fuel - 1, by omega⟩
      have h0 := herr 0 (by omega)
      rw [Nat.add_zero] at h0
      rw [Nat.add_zero]
      rcases h0 with h0 | h0 <;> simp [renderAux, h0, errCause]
  | succ aL ih =>
      intro fuel pL idx elapsed errUsed herr hfuel
      obtain ⟨f, rfl⟩ : ∃ f, fuel = f + 1 := ⟨fuel - 1, by omega⟩
      have h0 := herr 0 (by omega)
      rw [Nat.add_zero] at h0
      have hshift : ∀ i, i ≤ aL →
          resp (idx + 1 + i) = ProvResp.rateLimited
            ∨ resp (idx + 1 + i) = ProvResp.serverError := by
        intro i hi
        have := herr (i + 1) (by omega)
        rwa [show idx + (i + 1) = idx + 1 + i by omega] at this
      have hrec := ih f pL (idx + 1) (elapsed + base * 2 ^ errUsed)
        (errUsed + 1) hshift (by omega)
      rw [show idx + 1 + aL = idx + (aL + 1) by omega] at hrec
      rcases h0 with h0 | h0
      · simp only [renderAux, h0]
        exact hrec
      · simp only [renderAux, h0]
        exact hrec

/-- Retry loop, warm-up path, success case: `m` warming responses followed
by a success give the artifact after `m` fixed poll intervals, provided `m`
polls fit the ceiling. -/
theorem renderAux_warm_then_ok (resp : Nat → ProvResp) (base pollIv : Nat)
    (a : Artifact) :
    ∀ (m fuel aL pL idx elapsed errUsed : Nat),
      (∀ i, i < m → resp (idx + i) = ProvResp.warming) →
      resp (idx + m) = ProvResp.ok a → m ≤ pL → m < fuel →
      renderAux resp base pollIv fuel aL pL idx elapsed errUsed
        = Except.ok (a, elapsed + pollIv * m) := by
  intro m
  induction m with
  | zero =>
      intro fuel aL pL idx elapsed errUsed _ hok _ hfuel
      obtain ⟨f, rfl⟩ : ∃ f, fuel = f + 1 := ⟨fuel - 1, by omega⟩
      rw [Nat.add_zero] at hok
      simp [renderAux, hok]
  | succ m ih =>
      intro fuel aL pL idx elapsed errUsed hw hok hm hfuel
      obtain ⟨f, rfl⟩ : ∃ f, fuel = f + 1 := ⟨fuel - 1, by omega⟩
      obtain ⟨pL', rfl⟩ : ∃ x, pL = x + 1 := ⟨pL - 1, by omega⟩
      have h0 := hw 0 (by omega)
      rw [Nat.add_zero] at h0
      have hshift : ∀ i, i < m → resp (idx + 1 + i) = ProvResp.warming := by
        intro i hi
        have := hw (i + 1) (by omega)
        rwa [show idx + (i + 1) = idx + 1 + i by omega] at this
      have hok' : resp (idx + 1 + m) = ProvResp.ok a := by
        rwa [show idx + 1 + m = idx + (m + 1) by omega]
      have hrec := ih f aL pL' (idx + 1) (elapsed + pollIv) errUsed hshift
        hok' (by omega) (by omega)
      simp only [renderAux, h0]
      rw [hrec]
      have harith : elapsed + pollIv + pollIv * m
          = elapsed + pollIv * (m + 1) := by ring
      rw [harith]

/-- Retry loop, warm-up path, exhaustion case: when every response through
the poll ceiling is still warming up, the loop fails with the warm-up
timeout cause. -/
theorem renderAux_warm_exhaust (resp : Nat → ProvResp) (base pollIv : Nat) :
    ∀ (pL fuel aL idx elapsed errUsed : Nat),
      (∀ i, i ≤ pL → resp (idx + i) = ProvResp.warming) →
      pL < fuel →
      renderAux resp base pollIv fuel aL pL idx elapsed errUsed
        = Except.error Cause.warmingTimeout := by
  intro pL
  induction pL with
  | zero =>
      intro fuel aL idx elapsed errUsed hw hfuel
      obtain ⟨f, rfl⟩ : ∃ f, fuel = f + 1 := ⟨fuel - 1, by omega⟩
      have h0 := hw 0 (by omega)
      rw [Nat.add_zero] at h0
      simp [renderAux, h0]
  | succ pL ih =>
      intro fuel aL idx elapsed errUsed hw hfuel
      obtain ⟨f, rfl⟩ : ∃ f, fuel = f + 1 := ⟨fuel - 1, by omega⟩
      have h0 := hw 0 (by omega)
      rw [Nat.add_zero] at h0
      have hshift : ∀ i, i ≤ pL → resp (idx + 1 + i) = ProvResp.warming := by
        intro i hi
        have := hw (i + 1) (by omega)
        rwa [show idx + (i + 1) = idx + 1 + i by omega] at this
      simp only [renderAux, h0]
      exact ih f aL (idx + 1) (elapsed + pollIv) errUsed hshift (by omega)

/-- C7: a 429/5xx response triggers exponentially backed-off retries within
the attempt cap and a 202 response triggers fixed-interval polls within the
ceiling; the call succeeds whenever a success arrives within the budget (in
particular after three rate limits), accumulating the backoff delays in the
elapsed time; only an exhausted budget fails, with the last observed cause,
and a successful render marks the running task `succeeded`, not `failed`. -/
theorem C7_provider_retries (resp : Nat → ProvResp)
    (base pollIv attemptCap maxPolls k m : Nat) (a : Artifact) :
    ((∀ i, i < k →
        resp i = ProvResp.rateLimited ∨ resp i = ProvResp.serverError) →
      resp k = ProvResp.ok a → k ≤ attemptCap →
      renderWith resp base pollIv attemptCap maxPolls
          = Except.ok (a, backSum base 0 k)
        ∧ backSum base 0 k + base = base * 2 ^ k)
    ∧ ((∀ i, i ≤ attemptCap →
        resp i = ProvResp.rateLimited ∨ resp i = ProvResp.serverError) →
      renderWith resp base pollIv attemptCap maxPolls
        = Except.error (errCause (resp attemptCap)))
    ∧ ((∀ i, i < m → resp i = ProvResp.warming) →
      resp m = ProvResp.ok a → m ≤ maxPolls →
      renderWith resp base pollIv attemptCap maxPolls
        = Except.ok (a, pollIv * m))
    ∧ ((∀ i, i ≤ maxPolls → resp i = ProvResp.warming) →
      renderWith resp base pollIv attemptCap maxPolls
        = Except.error Cause.warmingTimeout)
    ∧ (∀ (s : SchedState) (i : Nat) (t : Task) (d : Nat),
      s.store i = some t → t.status = Status.running →
      renderWith resp base pollIv attemptCap maxPolls = Except.ok (a, d) →
      (applyOutcome s i
          ((renderWith resp base pollIv attemptCap maxPolls).map
            Prod.fst)).store i
        = some (t.toSucceeded a)
      ∧ (t.toSucceeded a).status = Status.succeeded) := by
  refine ⟨?_, ?_, ?_, ?_, ?_⟩
  · intro herr hok hk
    constructor
    · have := renderAux_errs_then_ok resp base pollIv a k
        (attemptCap + maxPolls + 1) attemptCap maxPolls 0 0 0
        (by intro i hi; rw [Nat.zero_add]; exact herr i hi)
        (by rw [Nat.zero_add]; exact hok) hk (by omega)
      rw [renderWith, this, Nat.zero_add]
    · have := backSum_add base k 0
      simpa using this
  · intro herr
    have := renderAux_errs_exhaust resp base pollIv attemptCap
      (attemptCap + maxPolls + 1) maxPolls 0 0 0
      (by intro i hi; rw [Nat.zero_add]; exact herr i hi) (by omega)
    rw [renderWith, this, Nat.zero_add]
  · intro hwarm hok hm
    have := renderAux_warm_then_ok resp base pollIv a m
      (attemptCap + maxPolls + 1) attemptCap maxPolls 0 0 0
      (by intro i hi; rw [Nat.zero_add]; exact hwarm i hi)
      (by rw [Nat.zero_add]; exact hok) hm (by omega)
    rw [renderWith, this, Nat.zero_add]
  · intro hwarm
    have := renderAux_warm_exhaust resp base pollIv maxPolls
      (attemptCap + maxPolls + 1) attemptCap 0 0 0
      (by intro i hi; rw [Nat.zero_add]; exact hwarm i hi) (by omega)
    rw [renderWith, this]
  · intro s i t d hs hr hrender
    refine ⟨?_, rfl⟩
    rw [hrender]
    simp [applyOutcome, hs, hr, Except.map, SchedState.setStore]

/-- C7 witness: with backoff base 7, a provider rate-limited on its first
three calls then succeeding yields a success carrying the summed backoff
delays (7 + 14 + 28), and applied to a running task produces a `succeeded`
task; a provider that rate-limits past the cap fails rate-limited; two
warm-up responses then success yields a success after two poll intervals; a
provider warming past the ceiling fails with the warm-up timeout. -/
theorem C7_provider_retries_witness :
    renderWith resp429x3 7 2 5 4 = Except.ok (doneArtifact, backSum 7 0 3)
    ∧ backSum 7 0 3 + 7 = 7 * 2 ^ 3
    ∧ renderWith respAlways429 7 2 5 4
        = Except.error (errCause (respAlways429 5))
    ∧ renderWith respWarmx2 7 2 5 4 = Except.ok (doneArtifact, 2 * 2)
    ∧ renderWith respAlwaysWarm 7 2 5 4 = Except.error Cause.warmingTimeout
    ∧ (applyOutcome runState 0
          ((renderWith resp429x3 7 2 5 4).map Prod.fst)).store 0
        = some (runTask.toSucceeded doneArtifact)
    ∧ (runTask.toSucceeded doneArtifact).status = Status.succeeded := by
  refine ⟨?_, ?_, ?_, ?_, ?_, ?_, ?_⟩
  · exact ((C7_provider_retries resp429x3 7 2 5 4 3 0 doneArtifact).1
      (by decide) (by decide) (by decide)).1
  · exact ((C7_provider_retries resp429x3 7 2 5 4 3 0 doneArtifact).1
      (by decide) (by decide) (by decide)).2
  · exact (C7_provider_retries respAlways429 7 2 5 4 0 0 doneArtifact).2.1
      (by decide)
  · exact (C7_provider_retries respWarmx2 7 2 5 4 0 2 doneArtifact).2.2.1
      (by decide) (by decide) (by decide)
  · exact (C7_provider_retries respAlwaysWarm 7 2 5 4 0 0 doneArtifact).2.2.2.1
      (by decide)
  · exact ((C7_provider_retries resp429x3 7 2 5 4 3 0 doneArtifact).2.2.2.2
      runState 0 runTask (backSum 7 0 3) rfl rfl
      (((C7_provider_retries resp429x3 7 2 5 4 3 0 doneArtifact).1
        (by decide) (by decide) (by decide)).1)).1
  · exact ((C7_provider_retries resp429x3 7 2 5 4 3 0 doneArtifact).2.2.2.2
      runState 0 runTask (backSum 7 0 3) rfl rfl
      (((C7_provider_retries resp429x3 7 2 5 4 3 0 doneArtifact).1
        (by decide) (by decide) (by decide)).1)).2

/-- C8: the local fallback provider is a pure function — its output is
independent of network availability, it always returns the deterministic
artifact synthesized from the input, and driving any running task with it
always lands the task in `succeeded`. -/
theorem C8_local_fallback (input : String) (params : Params) :
    (∀ net net' : Bool,
      localRender input params net = localRender input params net')
    ∧ localRender input params false = Except.ok (localArtifact input)
    ∧ (∀ (s : SchedState) (i : Nat) (t : Task) (net : Bool),
        s.store i = some t → t.status = Status.running →
        (applyOutcome s i (localRender input params net)).store i
            = some (t.toSucceeded (localArtifact input))
          ∧ (t.toSucceeded (localArtifact input)).status
            = Status.succeeded) := by
  refine ⟨fun _ _ => rfl, rfl, ?_⟩
  intro s i t net hs hr
  refine ⟨?_, rfl⟩
  simp [applyOutcome, hs, hr, localRender, SchedState.setStore]

/-- C8 witness: rendering "demo.mid" with the local fallback gives the same
successful artifact with and without network, and drives the running demo
task to `succeeded`. -/
theorem C8_local_fallback_witness :
    localRender "demo.mid" [] true = localRender "demo.mid" [] false
    ∧ localRender "demo.mid" [] false = Except.ok (localArtifact "demo.mid")
    ∧ (applyOutcome runState 0 (localRender "demo.mid" [] false)).store 0
        = some (runTask.toSucceeded (localArtifact "demo.mid"))
    ∧ (runTask.toSucceeded (localArtifact "demo.mid")).status
        = Status.succeeded := by
  have h := C8_local_fallback "demo.mid" []
  have h3 := h.2.2 runState 0 runTask false rfl rfl
  exact ⟨h.1 true false, h.2.1, h3.1, h3.2⟩

/-! ## Scheduler invariant lemmas -/

/-- Reading back the slot just written. -/
theorem setStore_at (s : SchedState) (i : Nat) (t : Task) :
    (s.setStore i t).store i = some t := by
  simp [SchedState.setStore]

/-- Writing one slot leaves every other slot unchanged. -/
theorem setStore_ne (s : SchedState) (i : Nat) (t : Task) (j : Nat)
    (h : j ≠ i) : (s.setStore i t).store j = s.store j := by
  simp [SchedState.setStore, h]

/-- Submission populates the fresh id. -/
theorem submitTask_at (s : SchedState) (owner : String) :
    (submitTask s owner).store s.nextId = some (freshTask s.nextId owner) := by
  simp [submitTask]

/-- Submission leaves every existing slot unchanged. -/
theorem submitTask_ne (s : SchedState) (owner : String) (j : Nat)
    (h : j ≠ s.nextId) : (submitTask s owner).store j = s.store j := by
  simp [submitTask, h]

/-- A populated slot lies below `nextId` in a well-formed state. -/
theorem store_lt_of_wf {s : SchedState} (hw : Wf s) {i : Nat} {t : Task}
    (h : s.store i = some t) : i < s.nextId := by
  by_contra hge
  rw [hw i (by omega)] at h
  exact Option.noConfusion h

/-- How `isRunningAt` changes under a single-slot write. -/
theorem isRunningAt_setStore (s : SchedState) (i : Nat) (t : Task) (j : Nat) :
    isRunningAt (s.setStore i t) j
      = if j = i then decide (t.status = Status.running)
        else isRunningAt s j := by
  by_cases h : j = i <;> simp [isRunningAt, SchedState.setStore, h]

/-- Splitting a filtered card at one designated member. -/
theorem card_filter_eq_erase_add (S : Finset Nat) (p : Nat → Prop)
    [DecidablePred p] (i : Nat) (hi : i ∈ S) :
    (S.filter p).card
      = ((S.erase i).filter p).card + (if p i then 1 else 0) := by
  by_cases hp : p i
  · rw [if_pos hp]
    have hmem : i ∈ S.filter p := Finset.mem_filter.2 ⟨hi, hp⟩
    rw [Finset.filter_erase, Finset.card_erase_of_mem hmem]
    have hpos : 0 < (S.filter p).card := Finset.card_pos.2 ⟨i, hmem⟩
    omega
  · rw [if_neg hp, Nat.add_zero, Finset.filter_erase,
      Finset.erase_eq_of_not_mem]
    intro hmem
    exact hp (Finset.mem_filter.1 hmem).2

/-- The running count after writing slot `i`: the old contribution of slot
`i` is swapped for the new task's contribution. -/
theorem runCount_setStore (s : SchedState) (i : Nat) (t : Task)
    (hi : i < s.nextId) :
    runCount (s.setStore i t) + (if isRunningAt s i = true then 1 else 0)
      = runCount s + (if t.status = Status.running then 1 else 0) := by
  classical
  have hmem : i ∈ Finset.range s.nextId := Finset.mem_range.2 hi
  have h1 : runCount (s.setStore i t)
      = (((Finset.range s.nextId).erase i).filter
          (fun j => isRunningAt (s.setStore i t) j = true)).card
        + (if isRunningAt (s.setStore i t) i = true then 1 else 0) := by
    unfold runCount
    exact card_filter_eq_erase_add _ _ i hmem
  have h2 : runCount s
      = (((Finset.range s.nextId).erase i).filter
          (fun j => isRunningAt s j = true)).card
        + (if isRunningAt s i = true then 1 else 0) := by
    unfold runCount
    exact card_filter_eq_erase_add _ _ i hmem
  have hcongr : ((Finset.range s.nextId).erase i).filter
        (fun j => isRunningAt (s.setStore i t) j = true)
      = ((Finset.range s.nextId).erase i).filter
        (fun j => isRunningAt s j = true) := by
    apply Finset.filter_congr
    intro j hj
    have hne : j ≠ i := Finset.ne_of_mem_erase hj
    rw [isRunningAt_setStore, if_neg hne]
  have hsi : (if isRunningAt (s.setStore i t) i = true then 1 else 0)
      = (if t.status = Status.running then 1 else 0) := by
    rw [isRunningAt_setStore, if_pos rfl]
    by_cases h : t.status = Status.running
    · simp [h]
    · simp [h]
  rw [h1, h2, hcongr, hsi]
  omega

/-- Submission does not change the running count (the fresh task is
queued). -/
theorem runCount_submitTask (s : SchedState) (owner : String) :
    runCount (submitTask s owner) = runCount s := by
  unfold runCount
  have hnext : (submitTask s owner).nextId = s.nextId + 1 := rfl
  rw [hnext, Finset.range_succ, Finset.filter_insert]
  have hnew : isRunningAt (submitTask s owner) s.nextId = false := by
    simp [isRunningAt, submitTask, freshTask]
  rw [if_neg (by simp [hnew])]
  congr 1
  apply Finset.filter_congr
  intro j hj
  have hne : j ≠ s.nextId := by
    have := Finset.mem_range.1 hj
    omega
  simp [isRunningAt, submitTask, hne]

/-- A state is well-formed after a single-slot rewrite below `nextId`. -/
theorem wf_setStore {s : SchedState} (hw : Wf s) (i : Nat) (t : Task)
    (hi : i < s.nextId) : Wf (s.setStore i t) := by
  intro k hk
  have hk' : s.nextId ≤ k := hk
  rw [setStore_ne s i t k (by omega)]
  exact hw k hk'

/-- Rewriting one slot with a task satisfying the field invariant keeps the
per-task invariant everywhere. -/
theorem field_setStore {s : SchedState}
    (hfield : ∀ i t, s.store i = some t → fieldInv t) (i : Nat) (t' : Task)
    (hf : fieldInv t') :
    ∀ k tk, (s.setStore i t').store k = some tk → fieldInv tk := by
  intro k tk hsome
  by_cases hkn : k = i
  · subst hkn
    rw [setStore_at] at hsome
    injection hsome with hsome
    rw [← hsome]
    exact hf
  · rw [setStore_ne s i t' k hkn] at hsome
    exact hfield k tk hsome

/-- A fresh task satisfies the field invariant. -/
theorem fieldInv_fresh (i : Nat) (owner : String) :
    fieldInv (freshTask i owner) := by
  simp [fieldInv, freshTask]

/-- Both fields are null on a task that is neither succeeded nor failed. -/
theorem fieldInv_both_none {t : Task} (h : fieldInv t)
    (h1 : t.status ≠ Status.succeeded) (h2 : t.status ≠ Status.failed) :
    t.result = none ∧ t.error = none :=
  h.2.2 h1 h2

/-- Promotion preserves the field invariant. -/
theorem fieldInv_toRunning (t : Task) (h1 : t.result = none)
    (h2 : t.error = none) : fieldInv t.toRunning := by
  simp [fieldInv, Task.toRunning, h1, h2]

/-- Successful completion satisfies the field invariant. -/
theorem fieldInv_toSucceeded (t : Task) (a : Artifact)
    (h2 : t.error = none) : fieldInv (t.toSucceeded a) := by
  simp [fieldInv, Task.toSucceeded, h2]

/-- Failure with a provider cause satisfies the field invariant, the error
code being non-empty for every cause. -/
theorem fieldInv_toFailed (t : Task) (c : Cause) (h1 : t.result = none) :
    fieldInv (t.toFailed c) := by
  refine ⟨by simp [Task.toFailed], ?_, by simp [Task.toFailed]⟩
  intro _
  refine ⟨by simp [Task.toFailed, h1],
    ⟨TaskError.ofCause c, by simp [Task.toFailed], ?_⟩⟩
  cases c <;> decide

/-- Cancellation preserves the field invariant. -/
theorem fieldInv_toCancelled (t : Task) (h1 : t.result = none)
    (h2 : t.error = none) : fieldInv t.toCancelled := by
  simp [fieldInv, Task.toCancelled, h1, h2]

/-- Setting the advisory cancel flag preserves the field invariant. -/
theorem fieldInv_withCancelRequested (t : Task) (h : fieldInv t) :
    fieldInv t.withCancelRequested := by
  simpa [fieldInv, Task.withCancelRequested] using h

/-- Every reachable scheduler state is well-formed, satisfies the per-task
field invariant, and keeps at most `N` tasks running. -/
theorem reachable_inv (N : Nat) (s : SchedState) (h : Reachable N s) :
    Inv N s := by
  induction h with
  | init =>
      refine ⟨fun i _ => rfl, ?_, ?_⟩
      · intro i t hsome
        exact absurd hsome (by simp [initState])
      · simp [runCount, initState]
  | @step u u' hr hstep ih =>
      obtain ⟨hw, hfield, hcount⟩ := ih
      cases hstep with
      | submit owner =>
          refine ⟨?_, ?_, ?_⟩
          · intro k hk
            have hk' : u.nextId + 1 ≤ k := hk
            rw [submitTask_ne u owner k (by omega)]
            exact hw k (by omega)
          · intro k tk hsome
            by_cases hkn : k = u.nextId
            · subst hkn
              rw [submitTask_at] at hsome
              injection hsome with hsome
              rw [← hsome]
              exact fieldInv_fresh u.nextId owner
            · rw [submitTask_ne u owner k hkn] at hsome
              exact hfield k tk hsome
          · rw [runCount_submitTask]
            exact hcount
      | promote i t ht hq hfifo hcap =>
          have hi := store_lt_of_wf hw ht
          have hboth := fieldInv_both_none (hfield i t ht)
            (by simp [hq]) (by simp [hq])
          refine ⟨wf_setStore hw i _ hi,
            field_setStore hfield i _
              (fieldInv_toRunning t hboth.1 hboth.2), ?_⟩
          have hrc := runCount_setStore u i t.toRunning hi
          have hout : isRunningAt u i = false := by
            simp [isRunningAt, ht, hq]
          rw [hout] at hrc
          generalize hX : runCount (u.setStore i t.toRunning) = X at hrc ⊢
          simp [Task.toRunning] at hrc
          omega
      | finishOk i t a ht hrun =>
          have hi := store_lt_of_wf hw ht
          have hboth := fieldInv_both_none (hfield i t ht)
            (by simp [hrun]) (by simp [hrun])
          refine ⟨wf_setStore hw i _ hi,
            field_setStore hfield i _ (fieldInv_toSucceeded t a hboth.2), ?_⟩
          have hrc := runCount_setStore u i (t.toSucceeded a) hi
          have hin : isRunningAt u i = true := by
            simp [isRunningAt, ht, hrun]
          rw [hin] at hrc
          generalize hX : runCount (u.setStore i (t.toSucceeded a)) = X at hrc ⊢
          simp [Task.toSucceeded] at hrc
          omega
      | finishErr i t c ht hrun =>
          have hi := store_lt_of_wf hw ht
          have hboth := fieldInv_both_none (hfield i t ht)
            (by simp [hrun]) (by simp [hrun])
          refine ⟨wf_setStore hw i _ hi,
            field_setStore hfield i _ (fieldInv_toFailed t c hboth.1), ?_⟩
          have hrc := runCount_setStore u i (t.toFailed c) hi
          have hin : isRunningAt u i = true := by
            simp [isRunningAt, ht, hrun]
          rw [hin] at hrc
          generalize hX : runCount (u.setStore i (t.toFailed c)) = X at hrc ⊢
          simp [Task.toFailed] at hrc
          omega
      | cancelQueued i t ht hq =>
          have hi := store_lt_of_wf hw ht
          have hboth := fieldInv_both_none (hfield i t ht)
            (by simp [hq]) (by simp [hq])
          refine ⟨wf_setStore hw i _ hi,
            field_setStore hfield i _
              (fieldInv_toCancelled t hboth.1 hboth.2), ?_⟩
          have hrc := runCount_setStore u i t.toCancelled hi
          have hout : isRunningAt u i = false := by
            simp [isRunningAt, ht, hq]
          rw [hout] at hrc
          generalize hX : runCount (u.setStore i t.toCancelled) = X at hrc ⊢
          simp [Task.toCancelled] at hrc
          omega
      | requestCancel i t ht hrun =>
          have hi := store_lt_of_wf hw ht
          refine ⟨wf_setStore hw i _ hi,
            field_setStore hfield i _
              (fieldInv_withCancelRequested t (hfield i t ht)), ?_⟩
          have hrc := runCount_setStore u i t.withCancelRequested hi
          have hin : isRunningAt u i = true := by
            simp [isRunningAt, ht, hrun]
          rw [hin] at hrc
          generalize hX : runCount (u.setStore i t.withCancelRequested) = X at hrc ⊢
          simp [Task.withCancelRequested, hrun] at hrc
          omega
      | observeCancel i t ht hrun hc =>
          have hi := store_lt_of_wf hw ht
          have hboth := fieldInv_both_none (hfield i t ht)
            (by simp [hrun]) (by simp [hrun])
          refine ⟨wf_setStore hw i _ hi,
            field_setStore hfield i _
              (fieldInv_toCancelled t hboth.1 hboth.2), ?_⟩
          have hrc := runCount_setStore u i t.toCancelled hi
          have hin : isRunningAt u i = true := by
            simp [isRunningAt, ht, hrun]
          rw [hin] at hrc
          generalize hX : runCount (u.setStore i t.toCancelled) = X at hrc ⊢
          simp [Task.toCancelled] at hrc
          omega

/-- No scheduler transition changes the status of a task that is already in
a terminal state. -/
theorem step_preserves_terminal {N : Nat} {s s' : SchedState} (hw : Wf s)
    (hstep : Step N s s') (i : Nat) (t : Task) (ht : s.store i = some t)
    (hterm : t.status.isTerminal = true) :
    ∃ t', s'.store i = some t' ∧ t'.status = t.status := by
  cases hstep with
  | submit owner =>
      have hi := store_lt_of_wf hw ht
      exact ⟨t, by rw [submitTask_ne s owner i (by omega)]; exact ht, rfl⟩
  | promote j u hu hqu hfifo hcap =>
      by_cases hij : i = j
      · subst hij
        rw [ht] at hu
        injection hu with hu
        rw [hu, hqu] at hterm
        exact absurd hterm (by decide)
      · exact ⟨t, by rw [setStore_ne s j _ i hij]; exact ht, rfl⟩
  | finishOk j u a hu hru =>
      by_cases hij : i = j
      · subst hij
        rw [ht] at hu
        injection hu with hu
        rw [hu, hru] at hterm
        exact absurd hterm (by decide)
      · exact ⟨t, by rw [setStore_ne s j _ i hij]; exact ht, rfl⟩
  | finishErr j u c hu hru =>
      by_cases hij : i = j
      · subst hij
        rw [ht] at hu
        injection hu with hu
        rw [hu, hru] at hterm
        exact absurd hterm (by decide)
      · exact ⟨t, by rw [setStore_ne s j _ i hij]; exact ht, rfl⟩
  | cancelQueued j u hu hqu =>
      by_cases hij : i = j
      · subst hij
        rw [ht] at hu
        injection hu with hu
        rw [hu, hqu] at hterm
        exact absurd hterm (by decide)
      · exact ⟨t, by rw [setStore_ne s j _ i hij]; exact ht, rfl⟩
  | requestCancel j u hu hru =>
      by_cases hij : i = j
      · subst hij
        rw [ht] at hu
        injection hu with hu
        rw [hu, hru] at hterm
        exact absurd hterm (by decide)
      · exact ⟨t, by rw [setStore_ne s j _ i hij]; exact ht, rfl⟩
  | observeCancel j u hu hru hc =>
      by_cases hij : i = j
      · subst hij
        rw [ht] at hu
        injection hu with hu
        rw [hu, hru] at hterm
        exact absurd hterm (by decide)
      · exact ⟨t, by rw [setStore_ne s j _ i hij]; exact ht, rfl⟩

/-- Any transition that turns a queued task into a running one can only be a
promotion: it happens below the concurrency cap and the promoted task is the
earliest queued task (no smaller id is queued). -/
theorem promotion_is_earliest {N : Nat} {s s' : SchedState} (hw : Wf s)
    (hstep : Step N s s') (i : Nat) (t t' : Task) (ht : s.store i = some t)
    (hq : t.status = Status.queued) (ht' : s'.store i = some t')
    (hr : t'.status = Status.running) :
    runCount s < N
    ∧ ∀ j, j < i → ∀ u, s.store j = some u → u.status ≠ Status.queued := by
  cases hstep with
  | submit owner =>
      have hi := store_lt_of_wf hw ht
      rw [submitTask_ne s owner i (by omega), ht] at ht'
      injection ht' with ht'
      rw [← ht', hq] at hr
      exact absurd hr (by decide)
  | promote j u hu hqu hfifo hcap =>
      by_cases hij : i = j
      · subst hij
        rw [ht] at hu
        injection hu with hu
        subst hu
        exact ⟨hcap, hfifo⟩
      · rw [setStore_ne s j _ i hij, ht] at ht'
        injection ht' with ht'
        rw [← ht', hq] at hr
        exact absurd hr (by decide)
  | finishOk j u a hu hru =>
      by_cases hij : i = j
      · subst hij
        rw [ht] at hu
        injection hu with hu
        rw [hu, hru] at hq
        exact absurd hq (by decide)
      · rw [setStore_ne s j _ i hij, ht] at ht'
        injection ht' with ht'
        rw [← ht', hq] at hr
        exact absurd hr (by decide)
  | finishErr j u c hu hru =>
      by_cases hij : i = j
      · subst hij
        rw [ht] at hu
        injection hu with hu
        rw [hu, hru] at hq
        exact absurd hq (by decide)
      · rw [setStore_ne s j _ i hij, ht] at ht'
        injection ht' with ht'
        rw [← ht', hq] at hr
        exact absurd hr (by decide)
  | cancelQueued j u hu hqu =>
      by_cases hij : i = j
      · subst hij
        rw [setStore_at] at ht'
        injection ht' with ht'
        rw [← ht'] at hr
        exact absurd hr (by simp [Task.toCancelled])
      · rw [setStore_ne s j _ i hij, ht] at ht'
        injection ht' with ht'
        rw [← ht', hq] at hr
        exact absurd hr (by decide)
  | requestCancel j u hu hru =>
      by_cases hij : i = j
      · subst hij
        rw [ht] at hu
        injection hu with hu
        rw [hu, hru] at hq
        exact absurd hq (by decide)
      · rw [setStore_ne s j _ i hij, ht] at ht'
        injection ht' with ht'
        rw [← ht', hq] at hr
        exact absurd hr (by decide)
  | observeCancel j u hu hru hc =>
      by_cases hij : i = j
      · subst hij
        rw [setStore_at] at ht'
        injection ht' with ht'
        rw [← ht'] at hr
        exact absurd hr (by simp [Task.toCancelled])
      · rw [setStore_ne s j _ i hij, ht] at ht'
        injection ht' with ht'
        rw [← ht', hq] at hr
        exact absurd hr (by decide)

/-! ## Claims C1 and C3 -/

/-- C1 (amended): in every reachable scheduler state every `succeeded` task
has a result and a null error, every `failed` task has a null result and a
non-empty error, every `cancelled` task and every non-terminal task has both
null, and no transition changes the status of a task that is already
terminal.  (As stated the claim also required `cancelled` tasks to carry
exactly one of result/error non-null, which the counterexample refutes.) -/
theorem C1_terminal_field_invariant (N : Nat) (s : SchedState)
    (h : Reachable N s) :
    (∀ i t, s.store i = some t →
      (t.status = Status.succeeded →
        (∃ a, t.result = some a) ∧ t.error = none)
      ∧ (t.status = Status.failed →
          t.result = none ∧ ∃ e, t.error = some e ∧ e.code ≠ "")
      ∧ (t.status = Status.cancelled ∨ t.status.isTerminal = false →
          t.result = none ∧ t.error = none))
    ∧ (∀ s', Step N s s' → ∀ i t, s.store i = some t →
        t.status.isTerminal = true →
        ∃ t', s'.store i = some t' ∧ t'.status = t.status) := by
  obtain ⟨hw, hfield, -⟩ := reachable_inv N s h
  constructor
  · intro i t hsome
    have hf := hfield i t hsome
    refine ⟨fun hsucc => ⟨?_, (hf.1 hsucc).2⟩, hf.2.1, ?_⟩
    · obtain ⟨⟨a, ha⟩, -⟩ := hf.1 hsucc
      exact ⟨a, ha⟩
    · intro hcase
      rcases hcase with hc | hnt
      · exact hf.2.2 (by simp [hc]) (by simp [hc])
      · refine hf.2.2 ?_ ?_
        · intro heq; rw [heq] at hnt; exact absurd hnt (by decide)
        · intro heq; rw [heq] at hnt; exact absurd hnt (by decide)
  · intro s' hstep i t hsome hterm
    exact step_preserves_terminal hw hstep i t hsome hterm

/-- C1 counterexample: the literal claim — every terminal task has exactly
one of result/error non-null — fails in a reachable state holding a task
cancelled before it ran, whose result and error are both null. -/
theorem C1_terminal_field_counterexample : ¬ C1_claimed_invariant 1 := by
  intro hclaim
  have hsub : Reachable 1 (submitTask initState "alice") :=
    Reachable.step Reachable.init (Step.submit initState "alice")
  have hreach : Reachable 1 cancelledDemoState :=
    Reachable.step hsub (Step.cancelQueued (submitTask initState "alice") 0
      (freshTask 0 "alice") rfl rfl)
  have hcase := hclaim cancelledDemoState hreach 0
    ((freshTask 0 "alice").toCancelled) rfl rfl
  rcases hcase with ⟨hres, -⟩ | ⟨-, herr⟩
  · exact hres rfl
  · exact herr rfl

/-- C1 witness: the amended invariant applied to the concrete reachable
state with a cancelled task — both its result and its error are null. -/
theorem C1_terminal_field_invariant_witness :
    ((freshTask 0 "alice").toCancelled).result = none
    ∧ ((freshTask 0 "alice").toCancelled).error = none := by
  have hsub : Reachable 1 (submitTask initState "alice") :=
    Reachable.step Reachable.init (Step.submit initState "alice")
  have hreach : Reachable 1 cancelledDemoState :=
    Reachable.step hsub (Step.cancelQueued (submitTask initState "alice") 0
      (freshTask 0 "alice") rfl rfl)
  exact ((C1_terminal_field_invariant 1 cancelledDemoState hreach).1 0
    ((freshTask 0 "alice").toCancelled) rfl).2.2 (Or.inl rfl)

/-- C3: in every reachable state at most `N` tasks are running; any
transition that moves a queued task to running happens strictly below the
cap and only promotes the earliest queued task (no smaller id is queued);
and a freshly submitted task always enters in state `queued`, never
`running`. -/
theorem C3_concurrency_cap_fifo (N : Nat) (s : SchedState)
    (h : Reachable N s) :
    runCount s ≤ N
    ∧ (∀ s', Step N s s' → ∀ i t t', s.store i = some t →
        t.status = Status.queued → s'.store i = some t' →
        t'.status = Status.running →
        runCount s < N
        ∧ ∀ j, j < i → ∀ u, s.store j = some u →
            u.status ≠ Status.queued)
    ∧ (∀ owner, (submitTask s owner).store s.nextId
          = some (freshTask s.nextId owner)
        ∧ (freshTask s.nextId owner).status = Status.queued) := by
  obtain ⟨hw, -, hcount⟩ := reachable_inv N s h
  refine ⟨hcount, ?_, ?_⟩
  · intro s' hstep i t t' ht hq ht' hr
    exact promotion_is_earliest hw hstep i t t' ht hq ht' hr
  · intro owner
    exact ⟨submitTask_at s owner, rfl⟩

/-- C3 witness: the concrete reachable state with one promoted task respects
the cap `N = 1`; the promotion step out of the submitted state was taken
below the cap; and a fresh submission lands in `queued`. -/
theorem C3_concurrency_cap_fifo_witness :
    runCount runningDemoState ≤ 1
    ∧ runCount (submitTask initState "alice") < 1
    ∧ (submitTask runningDemoState "bob").store runningDemoState.nextId
        = some (freshTask runningDemoState.nextId "bob")
    ∧ (freshTask runningDemoState.nextId "bob").status = Status.queued := by
  have hcap : runCount (submitTask initState "alice") < 1 := by
    rw [runCount_submitTask]
    simp [runCount, initState]
  have hstep : Step 1 (submitTask initState "alice") runningDemoState :=
    Step.promote (submitTask initState "alice") 0 (freshTask 0 "alice") rfl
      rfl (fun j hj => absurd hj (Nat.not_lt_zero j)) hcap
  have hreach1 : Reachable 1 (submitTask initState "alice") :=
    Reachable.step Reachable.init (Step.submit initState "alice")
  have hreach : Reachable 1 runningDemoState := Reachable.step hreach1 hstep
  refine ⟨(C3_concurrency_cap_fifo 1 runningDemoState hreach).1, ?_, ?_, ?_⟩
  · exact ((C3_concurrency_cap_fifo 1 (submitTask initState "alice")
      hreach1).2.1 runningDemoState hstep 0 (freshTask 0 "alice")
      ((freshTask 0 "alice").toRunning) rfl rfl rfl rfl).1
  · exact ((C3_concurrency_cap_fifo 1 runningDemoState hreach).2.2 "bob").1
  · exact ((C3_concurrency_cap_fifo 1 runningDemoState hreach).2.2 "bob").2

end MotifMaker
